import Mathlib

/-
Verification of the FlashMQ routing/session core against its specification.

The definitions below are a shallow embedding of the C++ sources
(authplugin.cpp, subscriptionstore.cpp, threaddata.cpp).  Pure computations
become Lean functions; the mutable broker state (the `Authentication` object,
the credential store, the session registry, the subscription trie and the
retained-message tree) becomes explicit state threaded through the functions.
External collaborators (the loaded plugin, the SHA-512 digest, the filesystem)
are passed in as parameters: a plugin call is represented by the integer or
`AuthResult` it returns, the digest by an abstract hash function, and a `stat`
of the password file by the `timespec` it reports.
-/

namespace FlashMQ

/-- `AuthResult` (authplugin.h): result of a login or ACL check. -/
inductive AuthResult where
  | success
  | acl_denied
  | login_denied
  | error
deriving DecidableEq, Repr

/-- The fields of `Authentication` that decide check outcomes: whether an
external plugin is configured (`useExternalPlugin`, set by `loadPlugin`),
whether security data is initialized (`initialized`), and the broker-wide
`quitting` flag. -/
structure AuthState where
  useExternalPlugin : Bool
  initialized : Bool
  quitting : Bool
deriving DecidableEq, Repr

/-- `Authentication::securityInit` (authplugin.cpp).  `pluginResult` is the
integer returned by the plugin's `security_init_v2`.  Returns the new state and
whether an `AuthPluginException` was thrown.  When no plugin is in use, or the
broker is quitting, the call is a no-op.  `initialized` becomes true only after
the plugin returned 0. -/
def securityInit (s : AuthState) (pluginResult : Int) : AuthState × Bool :=
  if !s.useExternalPlugin then (s, false)
  else if s.quitting then (s, false)
  else if pluginResult ≠ 0 then (s, true)
  else (⟨s.useExternalPlugin, true, s.quitting⟩, false)

/-- `Authentication::securityCleanup` (authplugin.cpp).  Sets `initialized`
to false before calling the plugin's `security_cleanup_v2`; throws when that
call returns non-zero (the flag stays false either way). -/
def securityCleanup (s : AuthState) (pluginResult : Int) : AuthState × Bool :=
  if !s.useExternalPlugin then (s, false)
  else (⟨s.useExternalPlugin, false, s.quitting⟩, pluginResult ≠ 0)

/-- `ThreadData::reload` (threaddata.cpp): `securityCleanup(true)` then
`securityInit(true)`, catching `AuthPluginException` (the failure is only
logged, the state produced so far is kept). -/
def reload (s : AuthState) (cleanupResult initResult : Int) : AuthState :=
  let r1 := securityCleanup s cleanupResult
  if r1.2 then r1.1
  else (securityInit r1.1 initResult).1

/-- `Authentication::aclCheck` (authplugin.cpp).  `pluginAnswer` is the
`AuthResult` decoded from the plugin's `acl_check_v2` return value.  With no
plugin configured the check succeeds; with a plugin configured but not
initialized it returns `error`. -/
def aclCheck (s : AuthState) (pluginAnswer : AuthResult) : AuthResult :=
  if !s.useExternalPlugin then .success
  else if !s.initialized then .error
  else pluginAnswer

/-- `Authentication::unPwdCheck` (authplugin.cpp) given the result of the
password-file stage (`fileResult`) and the plugin's `unpwd_check_v2` answer.
Returns the overall result and whether the plugin was actually consulted. -/
def unPwdCheck (s : AuthState) (fileResult : AuthResult) (pluginAnswer : AuthResult) :
    AuthResult × Bool :=
  if fileResult ≠ .success then (fileResult, false)
  else if !s.useExternalPlugin then (fileResult, false)
  else if !s.initialized then (.error, false)
  else (pluginAnswer, true)

/-- The runtime operations that touch `AuthState` after startup:
plugin security init/cleanup, the reload sequence, and `setQuitting`.
(`loadPlugin`/`init` run only at startup, before any reload.) -/
inductive AuthOp where
  | secInit (reloading : Bool) (pluginResult : Int)
  | secCleanup (reloading : Bool) (pluginResult : Int)
  | reloadOp (cleanupResult initResult : Int)
  | setQuitting

/-- State transition of one runtime operation (checks do not modify state). -/
def stepAuth (s : AuthState) (op : AuthOp) : AuthState :=
  match op with
  | .secInit _ r => (securityInit s r).1
  | .secCleanup _ r => (securityCleanup s r).1
  | .reloadOp c r => reload s c r
  | .setQuitting => ⟨s.useExternalPlugin, s.initialized, true⟩

/-- Whether the operation contains a `securityInit` that completes
successfully from state `s` (sets `initialized`). -/
def initSucceeds (s : AuthState) (op : AuthOp) : Bool :=
  match op with
  | .secInit _ r => s.useExternalPlugin && !s.quitting && decide (r = 0)
  | .reloadOp c r => s.useExternalPlugin && !s.quitting && decide (c = 0) && decide (r = 0)
  | _ => false

/-- No operation in the list performs a successful `securityInit`. -/
def noSuccessfulInit (s : AuthState) : List AuthOp → Bool
  | [] => true
  | op :: rest => !initSucceeds s op && noSuccessfulInit (stepAuth s op) rest

/-- `MosquittoPasswordFileEntry` (authplugin.h/.cpp): the base64-decoded salt
and crypted password of one password-file line, as byte lists. -/
structure MosquittoPasswordFileEntry where
  salt : List Nat
  cryptedPassword : List Nat
deriving DecidableEq, Repr

/-- `struct timespec` as stored in `mosquittoPasswordFileLastLoad`. -/
structure Timespec where
  sec : Int
  nsec : Int
deriving DecidableEq, Repr

/-- The credential-store fields of `Authentication` (plus the
`allow_anonymous` setting it reads): the configured password-file path, the
loaded entry table (`none` when no load has succeeded yet — the C++ null
`unique_ptr`), and the `ctime` recorded at the last successful load. -/
structure CredentialState where
  mosquittoPasswordFile : String
  mosquittoPasswordEntries : Option (List (String × MosquittoPasswordFileEntry))
  mosquittoPasswordFileLastLoad : Timespec
  allowAnonymous : Bool
deriving DecidableEq, Repr

/-- `Authentication::unPwdCheckFromMosquittoPasswordFile` (authplugin.cpp).
`hash password salt` stands for `SHA-512(password_bytes ∥ salt)` computed with
the EVP digest context.  An empty file path means success; a configured file
whose table was never loaded means `login_denied`; otherwise the default is
`success`/`login_denied` per `allow_anonymous`, overridden by the digest
comparison when the username has an entry. -/
def unPwdCheckFromMosquittoPasswordFile
    (hash : String → List Nat → List Nat) (st : CredentialState)
    (username password : String) : AuthResult :=
  if st.mosquittoPasswordFile.isEmpty then .success
  else
    match st.mosquittoPasswordEntries with
    | none => .login_denied
    | some table =>
      match table.find? (fun e => e.1 == username) with
      | none => if st.allowAnonymous then .success else .login_denied
      | some e =>
          if hash password e.2.salt == e.2.cryptedPassword then .success
          else .login_denied

/-- `Authentication::unPwdCheck` composed with its password-file stage:
the full login decision of the Auth Facade. -/
def unPwdCheckFull (hash : String → List Nat → List Nat) (cred : CredentialState)
    (auth : AuthState) (username password : String) (pluginAnswer : AuthResult) :
    AuthResult × Bool :=
  unPwdCheck auth (unPwdCheckFromMosquittoPasswordFile hash cred username password)
    pluginAnswer

/-- `Authentication::loadMosquittoPasswordFile` (authplugin.cpp), one
scheduled tick.  `accessible` is the result of the `access(..., R_OK)` probe,
`fileCtime` the `st_ctim` reported by `stat`, and `parsed` the entry table the
parsing loop would produce from the file's current contents.  The code
returns without reloading when `ctime.tv_sec` equals the stored
`tv_sec` (`tv_nsec` is not compared). -/
def loadMosquittoPasswordFile (st : CredentialState) (accessible : Bool)
    (fileCtime : Timespec) (parsed : List (String × MosquittoPasswordFileEntry)) :
    CredentialState :=
  if st.mosquittoPasswordFile.isEmpty then st
  else if !accessible then st
  else if fileCtime.sec = st.mosquittoPasswordFileLastLoad.sec then st
  else ⟨st.mosquittoPasswordFile, some parsed, fileCtime, st.allowAnonymous⟩

/-- `SubscriptionStore::removeSession` (subscriptionstore.cpp).  The session
registry `sessionsById` (an `unordered_map` from client-id to session) is
modelled as an association list in iteration order, sessions as numeric
identifiers; `begin()` is the head.  The code erases `sessionsById.begin()`
whenever the map is non-empty — the `clientid` argument is used only for
logging. -/
def removeSession (sessionsById : List (String × Nat)) (clientid : String) :
    List (String × Nat) :=
  match sessionsById with
  | [] => []
  | _ :: rest => rest

/-- `RetainedMessage` (retainedmessage.h): topic, payload and QoS.  The
`std::set<RetainedMessage>` comparator orders entries by topic, so lookup,
erase and replacement are keyed on the topic (the spec's "at most one
retained payload per exact topic"). -/
structure RetainedMessage where
  topic : String
  payload : String
  qos : Nat
deriving DecidableEq, Repr

/-- `RetainedMessageNode` (subscriptionstore.h): the retained tree, a node
holding the retained-message set and the literal children map (modelled as an
association list). -/
inductive RetainedMessageNode where
  | mk (retainedMessages : List RetainedMessage)
       (children : List (String × RetainedMessageNode))

/-- The retained-message set of a node. -/
def RetainedMessageNode.msgs : RetainedMessageNode → List RetainedMessage
  | .mk m _ => m

/-- The children map of a node. -/
def RetainedMessageNode.children :
    RetainedMessageNode → List (String × RetainedMessageNode)
  | .mk _ c => c

/-- Association-list lookup: `map.find(k)` for the `std::map` children. -/
def assocFind {α : Type} (l : List (String × α)) (k : String) : Option α :=
  (l.find? (fun e => e.1 == k)).map (fun e => e.2)

/-- Association-list update: `map[k] = v` — replaces the first binding of `k`
or appends a fresh one. -/
def assocSet {α : Type} : List (String × α) → String → α → List (String × α)
  | [], k, v => [(k, v)]
  | (k', v') :: rest, k, v =>
      if k' == k then (k, v) :: rest else (k', v') :: assocSet rest k v

/-- `RetainedMessageNode::addPayload` (subscriptionstore.cpp).  Mirrors the
code: look the topic up in the set; an empty payload with no existing entry is
a no-op; an empty payload with an existing entry erases it; otherwise the old
entry (if any) is erased and the new one inserted.  `totalCount` is the
store-wide `retainedMessageCount`, adjusted by the change in set size. -/
def RetainedMessageNode.addPayload (n : RetainedMessageNode)
    (topic payload : String) (qos : Nat) (totalCount : Int) :
    RetainedMessageNode × Int :=
  let countBefore : Int := n.msgs.length
  let found := (n.msgs.find? (fun rm => rm.topic == topic)).isSome
  if !found && payload.isEmpty then (n, totalCount)
  else if found && payload.isEmpty then
    let after := n.msgs.filter (fun rm => rm.topic != topic)
    (.mk after n.children, totalCount + ((after.length : Int) - countBefore))
  else
    let afterErase := if found then n.msgs.filter (fun rm => rm.topic != topic)
      else n.msgs
    let after := afterErase ++ [⟨topic, payload, qos⟩]
    (.mk after n.children, totalCount + ((after.length : Int) - countBefore))

/-- `SubscriptionStore::setRetainedMessage` (subscriptionstore.cpp) from the
chosen root: walks `subtopics`, default-creating a child node per subtopic
(`children[subtopic]`), then calls `addPayload` on the deepest node. -/
def setRetainedMessage (n : RetainedMessageNode) (subtopics : List String)
    (topic payload : String) (qos : Nat) (totalCount : Int) :
    RetainedMessageNode × Int :=
  match subtopics with
  | [] => n.addPayload topic payload qos totalCount
  | s :: rest =>
    let child := (assocFind n.children s).getD (.mk [] [])
    let r := setRetainedMessage child rest topic payload qos totalCount
    (.mk n.msgs (assocSet n.children s r.1), r.2)

/-- The retained messages stored at the node reached by a path (empty when
the path does not exist). -/
def messagesAt : RetainedMessageNode → List String → List RetainedMessage
  | n, [] => n.msgs
  | n, s :: rest =>
    ((assocFind n.children s).map (fun c => messagesAt c rest)).getD []

mutual

/-- Number of retained payloads stored in the whole subtree. -/
def RetainedMessageNode.total : RetainedMessageNode → Nat
  | .mk m ch => m.length + totalChildren ch

/-- Number of retained payloads stored under a children list. -/
def totalChildren : List (String × RetainedMessageNode) → Nat
  | [] => 0
  | (_, c) :: rest => c.total + totalChildren rest

end

/-- `Subscription` (subscriptionstore.h): a weak session reference and the
granted QoS.  Sessions are modelled by numeric identifiers (`sid`); whether
the weak reference still resolves at a given moment is modelled by an `alive`
predicate passed to the operations that lock it.  `Subscription::operator==`
compares the sessions (their client ids), not the QoS. -/
structure Subscription where
  sid : Nat
  qos : Nat
deriving DecidableEq, Repr

/-- `SubscriptionNode` (subscriptionstore.h): subscriber list, literal
children map (modelled as an association list in map order), and the dedicated
`+` and `#` child slots. -/
inductive SubscriptionNode where
  | mk (subscribers : List Subscription)
       (children : List (String × SubscriptionNode))
       (childrenPlus : Option SubscriptionNode)
       (childrenPound : Option SubscriptionNode)

/-- Subscriber list of a node. -/
def SubscriptionNode.subscribers : SubscriptionNode → List Subscription
  | .mk s _ _ _ => s

/-- Literal children of a node. -/
def SubscriptionNode.children :
    SubscriptionNode → List (String × SubscriptionNode)
  | .mk _ c _ _ => c

/-- The `+` child slot of a node. -/
def SubscriptionNode.childrenPlus : SubscriptionNode → Option SubscriptionNode
  | .mk _ _ p _ => p

/-- The `#` child slot of a node. -/
def SubscriptionNode.childrenPound : SubscriptionNode → Option SubscriptionNode
  | .mk _ _ _ q => q

/-- A freshly constructed node (`new SubscriptionNode(subtopic)`). -/
def SubscriptionNode.empty : SubscriptionNode := .mk [] [] none none

/-- Replace the first subscription of the same session (`*subscriber_it = sub`
after `std::find`). -/
def replaceFirstSubscriber : List Subscription → Subscription → List Subscription
  | [], _ => []
  | x :: xs, s => if x.sid == s.sid then s :: xs else x :: replaceFirstSubscriber xs s

/-- `SubscriptionNode::addSubscriber` (subscriptionstore.cpp) on the
subscriber list: append the subscription, or overwrite the existing entry of
the same session (last write wins, QoS replaced). -/
def addSubscriber (subs : List Subscription) (s : Subscription) :
    List Subscription :=
  if (subs.find? (fun x => x.sid == s.sid)).isSome then
    replaceFirstSubscriber subs s
  else subs ++ [s]

/-- `SubscriptionNode::removeSubscriber` (subscriptionstore.cpp): erase the
first subscription of the session, if present. -/
def removeSubscriber : List Subscription → Nat → List Subscription
  | [], _ => []
  | x :: xs, sid => if x.sid == sid then xs else x :: removeSubscriber xs sid

/-- `SubscriptionStore::getDeepestNode` followed by `addSubscriber` — the trie
mutation performed by `SubscriptionStore::addSubscription` under the write
lock, from the chosen root: walk the filter tokens, default-creating the `#`
slot, the `+` slot, or `children[subtopic]` as the token demands, and add the
subscriber at the deepest node. -/
def addSubscription (n : SubscriptionNode) :
    List String → Subscription → SubscriptionNode
  | [], s =>
      .mk (addSubscriber n.subscribers s) n.children n.childrenPlus
        n.childrenPound
  | tok :: rest, s =>
      if tok == "#" then
        .mk n.subscribers n.children n.childrenPlus
          (some (addSubscription (n.childrenPound.getD .empty) rest s))
      else if tok == "+" then
        .mk n.subscribers n.children
          (some (addSubscription (n.childrenPlus.getD .empty) rest s))
          n.childrenPound
      else
        .mk n.subscribers
          (assocSet n.children tok
            (addSubscription ((assocFind n.children tok).getD .empty) rest s))
          n.childrenPlus n.childrenPound

/-- The child slot a filter token selects (the shared walking step of
`removeSubscription` and `getDeepestNode`): the `#` slot, the `+` slot, or a
`getChildren` lookup in the literal map (which never default-creates). -/
def slotFind (n : SubscriptionNode) (tok : String) : Option SubscriptionNode :=
  if tok == "#" then n.childrenPound
  else if tok == "+" then n.childrenPlus
  else assocFind n.children tok

/-- The node reached by walking a token path, `none` when the path does not
fully exist. -/
def nodeAt : SubscriptionNode → List String → Option SubscriptionNode
  | n, [] => some n
  | n, tok :: rest => (slotFind n tok).bind (fun c => nodeAt c rest)

/-- The subscriber list at a token path (empty when the path is missing). -/
def subsAtPath : SubscriptionNode → List String → List Subscription
  | n, [] => n.subscribers
  | n, tok :: rest => ((slotFind n tok).map (fun c => subsAtPath c rest)).getD []

/-- Whether the full node path of a topic filter exists in the trie. -/
def pathExists (n : SubscriptionNode) (p : List String) : Bool :=
  (nodeAt n p).isSome

/-- `SubscriptionStore::removeSubscription` (subscriptionstore.cpp) from the
chosen root.  Walks the filter tokens without default-creating (aborting as
soon as a slot is missing), then looks the client id up in `sessionsById` and,
when a session is found, removes its subscription at the deepest node. -/
def removeSubscription (sessionsById : List (String × Nat)) :
    SubscriptionNode → List String → String → SubscriptionNode
  | n, [], clientid =>
      match assocFind sessionsById clientid with
      | some sid =>
          .mk (removeSubscriber n.subscribers sid) n.children n.childrenPlus
            n.childrenPound
      | none => n
  | n, tok :: rest, clientid =>
      match slotFind n tok with
      | none => n
      | some c =>
          if tok == "#" then
            .mk n.subscribers n.children n.childrenPlus
              (some (removeSubscription sessionsById c rest clientid))
          else if tok == "+" then
            .mk n.subscribers n.children
              (some (removeSubscription sessionsById c rest clientid))
              n.childrenPound
          else
            .mk n.subscribers
              (assocSet n.children tok
                (removeSubscription sessionsById c rest clientid))
              n.childrenPlus n.childrenPound

/-- `SubscriptionStore::publishNonRecursively` (subscriptionstore.cpp): write
the packet to every subscriber whose weak session pointer still locks.
`alive` tells which sessions lock; the result is the list of subscriptions
written to, in order. -/
def publishNonRecursively (alive : Nat → Bool) (subs : List Subscription) :
    List Subscription :=
  subs.filter (fun s => alive s.sid)

/-- `SubscriptionStore::publishRecursively` (subscriptionstore.cpp).  At the
end of the topic path it delivers to the node's own subscribers; otherwise —
after the early return when the node has no children at all — it delivers to
the `#` child's subscribers, recurses into the literal child matching the
current subtopic, and recurses into the `+` child. -/
def publishRecursively (alive : Nat → Bool) :
    SubscriptionNode → List String → List Subscription
  | n, [] => publishNonRecursively alive n.subscribers
  | n, cur :: rest =>
      if n.children.isEmpty && n.childrenPlus.isNone && n.childrenPound.isNone
      then []
      else
        (match n.childrenPound with
          | some pnd => publishNonRecursively alive pnd.subscribers
          | none => []) ++
        (match assocFind n.children cur with
          | some c => publishRecursively alive c rest
          | none => []) ++
        (match n.childrenPlus with
          | some c => publishRecursively alive c rest
          | none => [])

/-- `SubscriptionStore::queuePacketAtSubscribers` (subscriptionstore.cpp):
start from `rootDollar` or `root` according to the `dollar` flag and publish
recursively; returns the subscriptions the packet was queued for. -/
def queuePacketAtSubscribers (alive : Nat → Bool)
    (root rootDollar : SubscriptionNode) (subtopics : List String)
    (dollar : Bool) : List Subscription :=
  publishRecursively alive (if dollar then rootDollar else root) subtopics

/-- The matching relation realized by `publishRecursively` for filters
installed by `addSubscription`: a literal token must equal the current
subtopic, `+` consumes exactly one subtopic, and a final `#` matches the
remaining subtopics only when at least one remains ([] matches only []). -/
def codeTopicMatch : List String → List String → Bool
  | [], [] => true
  | [], _ :: _ => false
  | _ :: _, [] => false
  | f :: fs, t :: ts =>
      if f == "#" then fs.isEmpty
      else if f == "+" then codeTopicMatch fs ts
      else f == t && codeTopicMatch fs ts

/-- MQTT matching as worded by the specification's claim: same as the code's
relation except that a final `#` also matches zero remaining levels
(`a/#` matches `a`). -/
def mqttTopicMatch : List String → List String → Bool
  | [], [] => true
  | [], _ :: _ => false
  | ["#"], _ => true
  | _ :: _, [] => false
  | f :: fs, t :: ts =>
      if f == "+" then mqttTopicMatch fs ts
      else f == t && mqttTopicMatch fs ts

mutual

/-- `SubscriptionNode::cleanSubscriptions` (subscriptionstore.cpp): clean the
literal children and drop those reporting zero remaining subscribers, do the
same for the `+`/`#` slots, then erase the subscriptions whose weak session
reference no longer locks; returns the cleaned node and the number of
subscribers left in it and its children. -/
def cleanSubscriptions (alive : Nat → Bool) :
    SubscriptionNode → SubscriptionNode × Nat
  | .mk subs children plus pound =>
      let rc := cleanChildrenList alive children
      let rp := cleanWildcardChild alive plus
      let rq := cleanWildcardChild alive pound
      let subs2 := subs.filter (fun s => alive s.sid)
      (.mk subs2 rc.1 rp.1 rq.1, subs2.length + (rc.2 + rp.2 + rq.2))

/-- The children-map loop of `cleanSubscriptions`: each child is cleaned and
kept iff its recursive count is positive; all counts are accumulated. -/
def cleanChildrenList (alive : Nat → Bool) :
    List (String × SubscriptionNode) → List (String × SubscriptionNode) × Nat
  | [] => ([], 0)
  | (k, c) :: rest =>
      let r := cleanSubscriptions alive c
      let rr := cleanChildrenList alive rest
      (if 0 < r.2 then (k, r.1) :: rr.1 else rr.1, r.2 + rr.2)

/-- The wildcard-children loop of `cleanSubscriptions`: a present `+`/`#`
child is cleaned and reset when its count is zero. -/
def cleanWildcardChild (alive : Nat → Bool) :
    Option SubscriptionNode → Option SubscriptionNode × Nat
  | none => (none, 0)
  | some c =>
      let r := cleanSubscriptions alive c
      (if 0 < r.2 then some r.1 else none, r.2)

end

mutual

/-- Number of subscriptions in the subtree whose session is live. -/
def totalLive (alive : Nat → Bool) : SubscriptionNode → Nat
  | .mk subs children plus pound =>
      (subs.filter (fun s => alive s.sid)).length
        + totalLiveChildren alive children
        + totalLiveOpt alive plus + totalLiveOpt alive pound

/-- `totalLive` summed over a children map. -/
def totalLiveChildren (alive : Nat → Bool) :
    List (String × SubscriptionNode) → Nat
  | [] => 0
  | (_, c) :: rest => totalLive alive c + totalLiveChildren alive rest

/-- `totalLive` of an optional wildcard child. -/
def totalLiveOpt (alive : Nat → Bool) : Option SubscriptionNode → Nat
  | none => 0
  | some c => totalLive alive c

end

/-- `SubscriptionStore::removeExpiredSessionsClients` (subscriptionstore.cpp),
after the expired sessions have been erased from `sessionsById` (`alive` is
session liveness after that erasure): the code rebuilds the subscription tree
by calling `cleanSubscriptions` on `root` only — `rootDollar` is not swept. -/
def removeExpiredSessionsClients (alive : Nat → Bool)
    (root rootDollar : SubscriptionNode) :
    SubscriptionNode × SubscriptionNode :=
  ((cleanSubscriptions alive root).1, rootDollar)

/-- Modelled from the spec: the syntactic validation of a subscribe topic
filter.  FlashMQ validates filters in the SUBSCRIBE packet handler
(mqttpacket.cpp / utils.cpp), which is not among the provided sources; per
spec §4.1, "Insert fails only if `topic_filter` is syntactically invalid
(empty, `#` not final, `+`/`#` embedded mid-token)".  A token is a lone
wildcard `#` (final position only), a lone `+`, or a literal containing
neither wildcard character. -/
def validTokens : List String → Bool
  | [] => true
  | [t] => t == "#" || t == "+"
      || (!t.data.contains '#' && !t.data.contains '+')
  | t :: rest => (t == "+" || (!t.data.contains '#' && !t.data.contains '+'))
      && validTokens rest

/-- Modelled from the spec: a valid subscribe filter is non-empty with valid
tokens (see `validTokens`). -/
def validSubscribeTopic (subtopics : List String) : Bool :=
  !subtopics.isEmpty && validTokens subtopics

/-- `addSubscription` guarded by the (spec-modelled) filter validation done
before the store is called: an invalid filter yields a validation error
(`false`) and the untouched trie; a valid one inserts (adding the subscriber
only when the client's session is registered, as the store does). -/
def addSubscriptionChecked (sessionsById : List (String × Nat))
    (clientid : String) (root : SubscriptionNode) (subtopics : List String)
    (qos : Nat) : Bool × SubscriptionNode :=
  if validSubscribeTopic subtopics then
    (true,
      match assocFind sessionsById clientid with
      | some sid => addSubscription root subtopics ⟨sid, qos⟩
      | none => root)
  else (false, root)

/-- Install a list of `(filter, subscription)` pairs into an empty root (the
trie produced by a sequence of `addSubscription` calls). -/
def buildTrie (installs : List (List String × Subscription)) :
    SubscriptionNode :=
  installs.foldl (fun n fs => addSubscription n fs.1 fs.2) .empty

/-- Number of subscription entries for session `sid` in a list (delivery
count of that session's subscription). -/
def countSid (sid : Nat) (l : List Subscription) : Nat :=
  l.countP (fun s => s.sid == sid)

theorem stepAuth_useExternalPlugin (s : AuthState) (op : AuthOp) :
    (stepAuth s op).useExternalPlugin = s.useExternalPlugin := by
  obtain ⟨p, i, q⟩ := s
  cases op with
  | secInit reloading r =>
      by_cases hr : r = 0 <;> cases p <;> cases q <;>
        simp_all [stepAuth, securityInit]
  | secCleanup reloading r =>
      cases p <;> simp_all [stepAuth, securityCleanup]
  | reloadOp c r =>
      by_cases hc : c = 0 <;> by_cases hr : r = 0 <;> cases p <;> cases q <;>
        simp_all [stepAuth, reload, securityCleanup, securityInit]
  | setQuitting => rfl

theorem stepAuth_initialized_false (s : AuthState) (op : AuthOp)
    (hinit : s.initialized = false) (hop : initSucceeds s op = false) :
    (stepAuth s op).initialized = false := by
  obtain ⟨p, i, q⟩ := s
  cases op with
  | secInit reloading r =>
      by_cases hr : r = 0 <;> cases p <;> cases q <;>
        simp_all [stepAuth, securityInit, initSucceeds]
  | secCleanup reloading r =>
      cases p <;> simp_all [stepAuth, securityCleanup]
  | reloadOp c r =>
      by_cases hc : c = 0 <;> by_cases hr : r = 0 <;> cases p <;> cases q <;>
        simp_all [stepAuth, reload, securityCleanup, securityInit, initSucceeds]
  | setQuitting => simpa [stepAuth] using hinit

theorem foldl_stepAuth_stays_uninitialized (ops : List AuthOp) :
    ∀ s : AuthState, s.useExternalPlugin = true → s.initialized = false →
      noSuccessfulInit s ops = true →
      (List.foldl stepAuth s ops).useExternalPlugin = true ∧
        (List.foldl stepAuth s ops).initialized = false := by
  induction ops with
  | nil => intro s hplug hinit _; exact ⟨hplug, hinit⟩
  | cons op rest ih =>
      intro s hplug hinit hno
      simp only [noSuccessfulInit, Bool.and_eq_true, Bool.not_eq_true'] at hno
      simp only [List.foldl_cons]
      exact ih (stepAuth s op)
        (by rw [stepAuth_useExternalPlugin]; exact hplug)
        (stepAuth_initialized_false s op hinit hno.1)
        hno.2

/-- After `security_cleanup(true)` succeeded and `security_init(true)` returned
non-zero, the reload ends with the plugin configured but uninitialized. -/
theorem reload_failed_state (s : AuthState) (r : Int)
    (hplug : s.useExternalPlugin = true) (hq : s.quitting = false) (hr : r ≠ 0) :
    reload s 0 r = ⟨true, false, false⟩ := by
  simp [reload, securityCleanup, securityInit, hplug, hq, hr]

/-- C1: if `security_init` fails during a reload (the plugin's `security_init`
returns non-zero after a successful `security_cleanup(true)`), then every
subsequent `aclCheck` and every plugin stage of `unPwdCheck` (the stage reached
when the password-file stage returned success) returns `error` — the request is
denied, fail closed — as long as no later `securityInit` completes
successfully. -/
theorem securityInit_failure_fails_closed (s : AuthState) (r : Int)
    (ops : List AuthOp)
    (hplug : s.useExternalPlugin = true) (hq : s.quitting = false) (hr : r ≠ 0)
    (hno : noSuccessfulInit (reload s 0 r) ops = true) :
    ∀ aclAnswer pwdAnswer : AuthResult,
      aclCheck (List.foldl stepAuth (reload s 0 r) ops) aclAnswer = .error ∧
        unPwdCheck (List.foldl stepAuth (reload s 0 r) ops) .success pwdAnswer =
          (.error, false) := by
  intro aclAnswer pwdAnswer
  have hstate := reload_failed_state s r hplug hq hr
  rw [hstate] at hno ⊢
  have h := foldl_stepAuth_stays_uninitialized ops ⟨true, false, false⟩ rfl rfl hno
  constructor
  · simp [aclCheck, h.1, h.2]
  · simp [unPwdCheck, h.1, h.2]

theorem securityInit_failure_fails_closed_witness :
    aclCheck (List.foldl stepAuth (reload ⟨true, true, false⟩ 0 1)
        [AuthOp.secInit true 3, AuthOp.secCleanup false 0]) .success = .error ∧
      unPwdCheck (List.foldl stepAuth (reload ⟨true, true, false⟩ 0 1)
        [AuthOp.secInit true 3, AuthOp.secCleanup false 0]) .success .success =
        (.error, false) :=
  securityInit_failure_fails_closed ⟨true, true, false⟩ 1
    [AuthOp.secInit true 3, AuthOp.secCleanup false 0]
    rfl rfl (by decide) (by decide) .success .success

/-- C5 counterexample: password file configured, table loaded and empty
(so it has no entry for user `"u"`), but with `allow_anonymous = true` the
check returns `success`, not `login_denied` as the claim states. -/
theorem unPwdCheckFile_unknown_user_counterexample :
    ([] : List (String × MosquittoPasswordFileEntry)).find? (fun e => e.1 == "u")
        = none ∧
      unPwdCheckFromMosquittoPasswordFile (fun _ _ => [])
        ⟨"pw", some [], ⟨0, 0⟩, true⟩ "u" "p" = .success :=
  ⟨rfl, rfl⟩

/-- C5 (amended): with an empty password-file path the check returns
`success`.  With a path configured: if the table was never loaded the check
returns `login_denied`; if the loaded table has no entry for the username
(in particular when it is empty) the check returns `login_denied` when
`allow_anonymous` is false, and `success` when it is true. -/
theorem unPwdCheckFile_no_entry (hash : String → List Nat → List Nat)
    (st : CredentialState) (u p : String) :
    (st.mosquittoPasswordFile.isEmpty = true →
        unPwdCheckFromMosquittoPasswordFile hash st u p = .success) ∧
      (st.mosquittoPasswordFile.isEmpty = false →
        (st.mosquittoPasswordEntries = none →
            unPwdCheckFromMosquittoPasswordFile hash st u p = .login_denied) ∧
          ∀ table, st.mosquittoPasswordEntries = some table →
            table.find? (fun e => e.1 == u) = none →
            unPwdCheckFromMosquittoPasswordFile hash st u p =
              if st.allowAnonymous then .success else .login_denied) := by
  refine ⟨fun h => ?_, fun h => ⟨fun hnone => ?_, fun table htab hfind => ?_⟩⟩
  · simp [unPwdCheckFromMosquittoPasswordFile, h]
  · simp [unPwdCheckFromMosquittoPasswordFile, h, hnone]
  · simp [unPwdCheckFromMosquittoPasswordFile, h, htab, hfind]

theorem unPwdCheckFile_no_entry_witness :
    unPwdCheckFromMosquittoPasswordFile (fun _ _ => [])
        ⟨"pw", some [], ⟨0, 0⟩, false⟩ "u" "p" = .login_denied := by
  have h := (unPwdCheckFile_no_entry (fun _ _ => [])
    ⟨"pw", some [], ⟨0, 0⟩, false⟩ "u" "p").2 rfl
  simpa using h.2 [] rfl rfl

/-- C7 counterexample: the file's ctime changed from `(5, 100)` to `(5, 200)`
(a sub-second change, so the two timespecs differ), yet
`loadMosquittoPasswordFile` does not reload — the entry table and the
recorded load time are left untouched, because only `tv_sec` is compared. -/
theorem loadPasswordFile_subsecond_counterexample :
    (⟨5, 200⟩ : Timespec) ≠ ⟨5, 100⟩ ∧
      loadMosquittoPasswordFile ⟨"pw", some [], ⟨5, 100⟩, false⟩ true ⟨5, 200⟩
          [("u", ⟨[], []⟩)] =
        ⟨"pw", some [], ⟨5, 100⟩, false⟩ :=
  ⟨by decide, rfl⟩

/-- C7 (amended): on every tick with the file configured and accessible, the
password file is reloaded (the parsed table replaces the entry table and the
new ctime is recorded) iff the ctime's `tv_sec` differs from the `tv_sec`
recorded at the last successful load; a change confined to the sub-second
field does not trigger a reload, and when `tv_sec` is unchanged the entry
table is left untouched. -/
theorem loadPasswordFile_reloads_iff_sec_changed (st : CredentialState)
    (fileCtime : Timespec) (parsed : List (String × MosquittoPasswordFileEntry))
    (hfile : st.mosquittoPasswordFile.isEmpty = false) :
    loadMosquittoPasswordFile st true fileCtime parsed =
      if fileCtime.sec = st.mosquittoPasswordFileLastLoad.sec then st
      else ⟨st.mosquittoPasswordFile, some parsed, fileCtime, st.allowAnonymous⟩ := by
  simp [loadMosquittoPasswordFile, hfile]

theorem loadPasswordFile_reloads_iff_sec_changed_witness :
    loadMosquittoPasswordFile ⟨"pw", some [], ⟨5, 100⟩, false⟩ true ⟨6, 100⟩
        [("u", ⟨[], []⟩)] = ⟨"pw", some [("u", ⟨[], []⟩)], ⟨6, 100⟩, false⟩ := by
  have h := loadPasswordFile_reloads_iff_sec_changed ⟨"pw", some [], ⟨5, 100⟩, false⟩
    ⟨6, 100⟩ [("u", ⟨[], []⟩)] rfl
  simpa using h

/-- C6: the composition rule of `Authentication::unPwdCheck`.  The
credential store is evaluated first; any non-`success` store result is final
and the plugin is not consulted; the plugin is consulted only when the store
succeeded, and then its answer is the overall result; with no plugin
configured the store's result is the overall result. -/
theorem unPwdCheck_composition (hash : String → List Nat → List Nat)
    (cred : CredentialState) (auth : AuthState) (u p : String)
    (pluginAnswer : AuthResult) :
    (unPwdCheckFromMosquittoPasswordFile hash cred u p ≠ .success →
        unPwdCheckFull hash cred auth u p pluginAnswer =
          (unPwdCheckFromMosquittoPasswordFile hash cred u p, false)) ∧
      ((unPwdCheckFull hash cred auth u p pluginAnswer).2 = true →
        unPwdCheckFromMosquittoPasswordFile hash cred u p = .success ∧
          (unPwdCheckFull hash cred auth u p pluginAnswer).1 = pluginAnswer) ∧
      (auth.useExternalPlugin = false →
        unPwdCheckFull hash cred auth u p pluginAnswer =
          (unPwdCheckFromMosquittoPasswordFile hash cred u p, false)) := by
  obtain ⟨plug, init, quit⟩ := auth
  refine ⟨fun h => ?_, fun h => ?_, fun h => ?_⟩
  · simp [unPwdCheckFull, unPwdCheck, h]
  · by_cases hfr : unPwdCheckFromMosquittoPasswordFile hash cred u p = .success <;>
      cases plug <;> cases init <;>
        simp_all [unPwdCheckFull, unPwdCheck]
  · by_cases hfr : unPwdCheckFromMosquittoPasswordFile hash cred u p = .success <;>
      simp_all [unPwdCheckFull, unPwdCheck]

theorem unPwdCheck_composition_witness :
    unPwdCheckFull (fun _ _ => []) ⟨"pw", none, ⟨0, 0⟩, false⟩
        ⟨true, true, false⟩ "u" "p" .success = (.login_denied, false) :=
  (unPwdCheck_composition (fun _ _ => []) ⟨"pw", none, ⟨0, 0⟩, false⟩
    ⟨true, true, false⟩ "u" "p" .success).1 (by decide)

/-- C2: evaluating `removeSession` at a registry holding sessions for
client-ids `"a"` and `"b"`.  Removing `"b"` erases the entry for `"a"` and
leaves `"b"` registered: the code removes the registry's first entry, not the
entry whose key is the given client-id. -/
theorem removeSession_removes_first_entry :
    removeSession [("a", 1), ("b", 2)] "b" = [("b", 2)] ∧
      (removeSession [("a", 1), ("b", 2)] "b").find? (fun e => e.1 == "a")
        = none ∧
      (removeSession [("a", 1), ("b", 2)] "b").find? (fun e => e.1 == "b")
        = some ("b", 2) :=
  ⟨rfl, rfl, rfl⟩

@[simp] theorem RetainedMessageNode.msgs_mk (m : List RetainedMessage)
    (ch : List (String × RetainedMessageNode)) :
    (RetainedMessageNode.mk m ch).msgs = m := rfl

@[simp] theorem retainedChildren_mk (m : List RetainedMessage)
    (ch : List (String × RetainedMessageNode)) :
    (RetainedMessageNode.mk m ch).children = ch := rfl

theorem assocFind_assocSet_self {α : Type} (l : List (String × α)) (k : String)
    (v : α) : assocFind (assocSet l k v) k = some v := by
  induction l with
  | nil => simp [assocFind, assocSet]
  | cons x rest ih =>
      obtain ⟨k0, v0⟩ := x
      by_cases hx : (k0 == k) = true
      · simp [assocFind, assocSet, hx, List.find?_cons]
      · have hx2 : (k0 == k) = false := by simpa using hx
        simp only [assocFind] at ih
        simp [assocFind, assocSet, hx2, List.find?_cons, ih]

theorem assocFind_assocSet_ne {α : Type} (l : List (String × α)) (k k' : String)
    (v : α) (h : k' ≠ k) : assocFind (assocSet l k v) k' = assocFind l k' := by
  have hkk : (k == k') = false := beq_eq_false_iff_ne.mpr (Ne.symm h)
  induction l with
  | nil => simp [assocFind, assocSet, List.find?_cons, hkk]
  | cons x rest ih =>
      obtain ⟨k0, v0⟩ := x
      by_cases hx : (k0 == k) = true
      · have hk0 : k0 = k := by simpa using hx
        subst hk0
        simp [assocFind, assocSet, List.find?_cons, hkk]
      · have hx2 : (k0 == k) = false := by simpa using hx
        simp only [assocFind] at ih
        cases hk0 : (k0 == k') with
        | true => simp [assocFind, assocSet, hx2, List.find?_cons, hk0]
        | false => simp [assocFind, assocSet, hx2, List.find?_cons, hk0, ih]

theorem totalChildren_assocSet (l : List (String × RetainedMessageNode))
    (k : String) (v : RetainedMessageNode) :
    totalChildren (assocSet l k v) + ((assocFind l k).getD (.mk [] [])).total
      = totalChildren l + v.total := by
  induction l with
  | nil =>
      simp [assocSet, assocFind, totalChildren, RetainedMessageNode.total]
  | cons x rest ih =>
      obtain ⟨k0, v0⟩ := x
      by_cases hx : (k0 == k) = true
      · simp only [assocSet, hx, if_true, totalChildren, assocFind,
          List.find?_cons, Option.map_some', Option.getD_some]
        omega
      · have hx2 : (k0 == k) = false := by simpa using hx
        simp only [assocSet, hx2, Bool.false_eq_true, if_false, totalChildren,
          assocFind, List.find?_cons, hx2]
        simp only [assocFind] at ih
        omega

theorem messagesAt_emptyNode (p : List String) :
    messagesAt (.mk [] []) p = [] := by
  cases p with
  | nil => rfl
  | cons s rest =>
      simp [messagesAt, assocFind, RetainedMessageNode.children]

theorem total_emptyNode : RetainedMessageNode.total (.mk [] []) = 0 := by
  simp [RetainedMessageNode.total, totalChildren]

theorem filter_ne_of_find?_topic_none (l : List RetainedMessage) (t : String)
    (h : l.find? (fun rm => rm.topic == t) = none) :
    l.filter (fun rm => rm.topic != t) = l := by
  induction l with
  | nil => rfl
  | cons x xs ih =>
      rw [List.find?_cons] at h
      cases hx : (x.topic == t) with
      | true => rw [hx] at h; exact absurd h (by simp)
      | false =>
          rw [hx] at h
          have hpx : (x.topic != t) = true := by simp [bne, hx]
          simp [List.filter_cons, hpx, ih h]

theorem addPayload_empty_not_found (n : RetainedMessageNode) (topic : String)
    (qos : Nat) (c : Int)
    (hf : (n.msgs.find? (fun rm => rm.topic == topic)).isSome = false) :
    n.addPayload topic "" qos c = (n, c) := by
  simp [RetainedMessageNode.addPayload, hf,
    show String.isEmpty "" = true from rfl]

theorem addPayload_empty_found (n : RetainedMessageNode) (topic : String)
    (qos : Nat) (c : Int)
    (hf : (n.msgs.find? (fun rm => rm.topic == topic)).isSome = true) :
    n.addPayload topic "" qos c =
      (.mk (n.msgs.filter (fun rm => rm.topic != topic)) n.children,
        c + (((n.msgs.filter (fun rm => rm.topic != topic)).length : Int)
          - (n.msgs.length : Int))) := by
  simp [RetainedMessageNode.addPayload, hf,
    show String.isEmpty "" = true from rfl]

theorem addPayload_empty (n : RetainedMessageNode) (topic : String) (qos : Nat)
    (c : Int) :
    (n.addPayload topic "" qos c).1.msgs
        = n.msgs.filter (fun rm => rm.topic != topic) ∧
      (n.addPayload topic "" qos c).1.children = n.children ∧
      (n.addPayload topic "" qos c).2 + (n.msgs.length : Int)
        = c + ((n.addPayload topic "" qos c).1.msgs.length : Int) := by
  cases hf : (n.msgs.find? (fun rm => rm.topic == topic)).isSome with
  | false =>
      rw [addPayload_empty_not_found n topic qos c hf]
      have hfe : n.msgs.filter (fun rm => rm.topic != topic) = n.msgs :=
        filter_ne_of_find?_topic_none n.msgs topic
          (Option.not_isSome_iff_eq_none.mp (by simp [hf]))
      exact ⟨hfe.symm, rfl, by simp⟩
  | true =>
      rw [addPayload_empty_found n topic qos c hf]
      refine ⟨rfl, rfl, ?_⟩
      simp only [RetainedMessageNode.msgs]
      omega

/-- C4 counterexample: publishing a retain-flagged empty payload to topic
`"a"` against an empty retained tree.  No entry exists at `"a"`, yet
`setRetainedMessage` does not leave the tree unchanged: it creates a fresh
(empty) node for `"a"` along the path. -/
theorem setRetainedMessage_creates_node_counterexample :
    (setRetainedMessage (.mk [] []) ["a"] "a" "" 0 0).1
        = RetainedMessageNode.mk [] [("a", .mk [] [])] ∧
      RetainedMessageNode.mk [] [("a", .mk [] [])] ≠ .mk [] [] := by
  constructor
  · rfl
  · intro h
    injection h with h1 h2
    exact absurd h2 (by simp)

/-- C4 (amended): `setRetainedMessage(t, payload = "", q)` removes any
existing retained entry at `t` and stores nothing anywhere else: the retained
messages at `t`'s node lose exactly the entries with topic `t`, and the
messages at every other path are unchanged.  It may, however, default-create
empty nodes along `t`'s path (the walk always runs `children[subtopic]`).  The
running `retained_message_count` changes by exactly the change in the number
of stored payloads, so it still matches the number of stored payloads
afterwards whenever it did before. -/
theorem RetainedMessageNode.total_eq (n : RetainedMessageNode) :
    n.total = n.msgs.length + totalChildren n.children := by
  cases n; rfl

/-- C4 (amended): `setRetainedMessage(t, payload = "", q)` removes any
existing retained entry at `t` and stores nothing anywhere else: the retained
messages at `t`'s node lose exactly the entries with topic `t`, and the
messages at every other path are unchanged.  It may, however, default-create
empty nodes along `t`'s path (the walk always runs `children[subtopic]`).  The
running `retained_message_count` changes by exactly the change in the number
of stored payloads, so it still matches the number of stored payloads
afterwards whenever it did before. -/
theorem setRetainedMessage_empty_payload (p : List String) :
    ∀ (n : RetainedMessageNode) (topic : String) (qos : Nat) (c : Int),
      (∀ q : List String,
        messagesAt (setRetainedMessage n p topic "" qos c).1 q =
          if q = p then (messagesAt n p).filter (fun rm => rm.topic != topic)
          else messagesAt n q) ∧
      (setRetainedMessage n p topic "" qos c).2
          + (RetainedMessageNode.total n : Int)
        = c + (RetainedMessageNode.total (setRetainedMessage n p topic "" qos c).1
            : Int) := by
  induction p with
  | nil =>
      intro n topic qos c
      obtain ⟨hmsgs, hch, hcount⟩ := addPayload_empty n topic qos c
      constructor
      · intro q
        cases q with
        | nil =>
            rw [if_pos rfl]
            simp only [setRetainedMessage, messagesAt]
            exact hmsgs
        | cons s rest =>
            rw [if_neg (List.cons_ne_nil s rest)]
            simp only [setRetainedMessage, messagesAt, hch]
      · simp only [setRetainedMessage] at hcount ⊢
        rw [RetainedMessageNode.total_eq n,
          RetainedMessageNode.total_eq (n.addPayload topic "" qos c).1, hch]
        push_cast at hcount ⊢
        omega
  | cons s rest ih =>
      intro n topic qos c
      obtain ⟨nmsgs, nch⟩ := n
      cases hfind : assocFind nch s with
      | some c0 =>
          obtain ⟨ihm, ihc⟩ := ih c0 topic qos c
          have hassoc := totalChildren_assocSet nch s
            (setRetainedMessage c0 rest topic "" qos c).1
          rw [hfind, Option.getD_some] at hassoc
          constructor
          · intro q
            cases q with
            | nil =>
                rw [if_neg (Ne.symm (List.cons_ne_nil s rest))]
                simp only [setRetainedMessage, messagesAt,
                  RetainedMessageNode.msgs_mk, retainedChildren_mk,
                  hfind, Option.getD_some]
            | cons s2 rest2 =>
                by_cases hs : s2 = s
                · subst hs
                  by_cases hr : rest2 = rest
                  · subst hr
                    rw [if_pos rfl]
                    simp only [setRetainedMessage, messagesAt,
                      RetainedMessageNode.msgs_mk,
                      retainedChildren_mk, hfind,
                      Option.getD_some, Option.map_some',
                      assocFind_assocSet_self]
                    rw [ihm rest2, if_pos rfl]
                  · rw [if_neg (by simp [hr])]
                    simp only [setRetainedMessage, messagesAt,
                      RetainedMessageNode.msgs_mk,
                      retainedChildren_mk, hfind,
                      Option.getD_some, Option.map_some',
                      assocFind_assocSet_self]
                    rw [ihm rest2, if_neg hr]
                · rw [if_neg (by simp [hs])]
                  simp only [setRetainedMessage, messagesAt,
                    RetainedMessageNode.msgs_mk,
                    retainedChildren_mk, hfind, Option.getD_some,
                    assocFind_assocSet_ne _ _ _ _ hs]
          · simp only [setRetainedMessage, RetainedMessageNode.msgs_mk,
              retainedChildren_mk, hfind, Option.getD_some]
            rw [RetainedMessageNode.total_eq (RetainedMessageNode.mk nmsgs nch),
              RetainedMessageNode.total_eq (RetainedMessageNode.mk nmsgs
                (assocSet nch s (setRetainedMessage c0 rest topic "" qos c).1))]
            simp only [RetainedMessageNode.msgs_mk,
              retainedChildren_mk]
            push_cast at ihc hassoc ⊢
            omega
      | none =>
          obtain ⟨ihm, ihc⟩ := ih (.mk [] []) topic qos c
          have hassoc := totalChildren_assocSet nch s
            (setRetainedMessage (.mk [] []) rest topic "" qos c).1
          rw [hfind, Option.getD_none] at hassoc
          rw [total_emptyNode] at hassoc ihc
          constructor
          · intro q
            cases q with
            | nil =>
                rw [if_neg (Ne.symm (List.cons_ne_nil s rest))]
                simp only [setRetainedMessage, messagesAt,
                  RetainedMessageNode.msgs_mk, retainedChildren_mk,
                  hfind, Option.getD_none]
            | cons s2 rest2 =>
                by_cases hs : s2 = s
                · subst hs
                  by_cases hr : rest2 = rest
                  · subst hr
                    rw [if_pos rfl]
                    simp only [setRetainedMessage, messagesAt,
                      RetainedMessageNode.msgs_mk,
                      retainedChildren_mk, hfind,
                      Option.getD_none, Option.map_some', Option.map_none',
                      assocFind_assocSet_self]
                    rw [ihm rest2, if_pos rfl, messagesAt_emptyNode]
                    simp
                  · rw [if_neg (by simp [hr])]
                    simp only [setRetainedMessage, messagesAt,
                      RetainedMessageNode.msgs_mk,
                      retainedChildren_mk, hfind,
                      Option.getD_none, Option.map_some', Option.map_none',
                      assocFind_assocSet_self]
                    rw [ihm rest2, if_neg hr, messagesAt_emptyNode]
                    simp
                · rw [if_neg (by simp [hs])]
                  simp only [setRetainedMessage, messagesAt,
                    RetainedMessageNode.msgs_mk,
                    retainedChildren_mk, hfind, Option.getD_none,
                    assocFind_assocSet_ne _ _ _ _ hs]
          · simp only [setRetainedMessage, RetainedMessageNode.msgs_mk,
              retainedChildren_mk, hfind, Option.getD_none]
            rw [RetainedMessageNode.total_eq (RetainedMessageNode.mk nmsgs nch),
              RetainedMessageNode.total_eq (RetainedMessageNode.mk nmsgs
                (assocSet nch s
                  (setRetainedMessage (.mk [] []) rest topic "" qos c).1))]
            simp only [RetainedMessageNode.msgs_mk,
              retainedChildren_mk]
            push_cast at ihc hassoc ⊢
            omega

/-- Sanity evaluation (scenario S4 of the spec): deleting the retained entry
at `home/light` empties that node's retained set and returns the running
count to 0. -/
theorem setRetainedMessage_delete_example :
    messagesAt (setRetainedMessage
        (.mk [] [("home", .mk [] [("light", .mk [⟨"home/light", "on", 1⟩] [])])])
        ["home", "light"] "home/light" "" 0 1).1 ["home", "light"] = [] ∧
      (setRetainedMessage
        (.mk [] [("home", .mk [] [("light", .mk [⟨"home/light", "on", 1⟩] [])])])
        ["home", "light"] "home/light" "" 0 1).2 = 0 := by
  exact ⟨by decide, by decide⟩

@[simp] theorem SubscriptionNode.subscribers_mk (s : List Subscription)
    (c : List (String × SubscriptionNode)) (p q : Option SubscriptionNode) :
    (SubscriptionNode.mk s c p q).subscribers = s := rfl

@[simp] theorem SubscriptionNode.children_mk (s : List Subscription)
    (c : List (String × SubscriptionNode)) (p q : Option SubscriptionNode) :
    (SubscriptionNode.mk s c p q).children = c := rfl

@[simp] theorem SubscriptionNode.childrenPlus_mk (s : List Subscription)
    (c : List (String × SubscriptionNode)) (p q : Option SubscriptionNode) :
    (SubscriptionNode.mk s c p q).childrenPlus = p := rfl

@[simp] theorem SubscriptionNode.childrenPound_mk (s : List Subscription)
    (c : List (String × SubscriptionNode)) (p q : Option SubscriptionNode) :
    (SubscriptionNode.mk s c p q).childrenPound = q := rfl

theorem SubscriptionNode.eta (n : SubscriptionNode) :
    SubscriptionNode.mk n.subscribers n.children n.childrenPlus n.childrenPound
      = n := by
  cases n; rfl

theorem countSid_nil (sid : Nat) : countSid sid [] = 0 := rfl

theorem countSid_append (sid : Nat) (a b : List Subscription) :
    countSid sid (a ++ b) = countSid sid a + countSid sid b :=
  List.countP_append _ a b

theorem countSid_filter_alive (alive : Nat → Bool) (sid : Nat)
    (l : List Subscription) :
    countSid sid (l.filter (fun s => alive s.sid)) =
      if alive sid = true then countSid sid l else 0 := by
  induction l with
  | nil => simp [countSid]
  | cons x xs ih =>
      by_cases hx : (x.sid == sid) = true
      · have hxe : x.sid = sid := by simpa using hx
        by_cases ha : alive sid = true
        · simp [countSid, List.filter_cons, List.countP_cons, hxe, ha] at ih ⊢
          omega
        · have ha2 : alive x.sid = false := by
            rw [hxe]; simpa using ha
          simp [countSid, List.filter_cons, List.countP_cons, ha2, ha] at ih ⊢
          exact ih
      · have hx2 : (x.sid == sid) = false := by simpa using hx
        cases ha2 : alive x.sid with
        | true =>
            simp [countSid, List.filter_cons, List.countP_cons, ha2, hx2]
              at ih ⊢
            split <;> simp_all
        | false =>
            simp [countSid, List.filter_cons, List.countP_cons, ha2, hx2]
              at ih ⊢
            exact ih

theorem countSid_replaceFirst (l : List Subscription) (s : Subscription)
    (sid : Nat) : countSid sid (replaceFirstSubscriber l s) = countSid sid l := by
  induction l with
  | nil => rfl
  | cons x xs ih =>
      by_cases hx : (x.sid == s.sid) = true
      · have hxe : x.sid = s.sid := by simpa using hx
        simp [replaceFirstSubscriber, hx, countSid, List.countP_cons, hxe]
      · have hx2 : (x.sid == s.sid) = false := by simpa using hx
        simp only [replaceFirstSubscriber, hx2, Bool.false_eq_true, if_false,
          countSid, List.countP_cons] at ih ⊢
        omega

theorem countSid_addSubscriber_ne (l : List Subscription) (s : Subscription)
    (sid : Nat) (h : s.sid ≠ sid) :
    countSid sid (addSubscriber l s) = countSid sid l := by
  unfold addSubscriber
  split
  · exact countSid_replaceFirst l s sid
  · simp [countSid_append, countSid, List.countP_cons, h]

theorem find?_sid_eq_none_of_countSid_zero (l : List Subscription) (sid : Nat)
    (h : countSid sid l = 0) : l.find? (fun x => x.sid == sid) = none := by
  rw [List.find?_eq_none]
  intro x hx hbeq
  simp only [countSid, List.countP_eq_zero] at h
  exact absurd hbeq (h x hx)

theorem countSid_addSubscriber_fresh (l : List Subscription) (s : Subscription)
    (h : countSid s.sid l = 0) :
    addSubscriber l s = l ++ [s] := by
  unfold addSubscriber
  rw [find?_sid_eq_none_of_countSid_zero l s.sid h]
  simp

theorem publishRecursively_nil (alive : Nat → Bool) (n : SubscriptionNode) :
    publishRecursively alive n [] = n.subscribers.filter (fun s => alive s.sid)
  := rfl

theorem publishRecursively_cons (alive : Nat → Bool) (n : SubscriptionNode)
    (cur : String) (rest : List String) :
    publishRecursively alive n (cur :: rest) =
      ((n.childrenPound.map
        (fun pnd => pnd.subscribers.filter (fun s => alive s.sid))).getD []) ++
      (((assocFind n.children cur).map
        (fun c => publishRecursively alive c rest)).getD []) ++
      ((n.childrenPlus.map
        (fun c => publishRecursively alive c rest)).getD []) := by
  by_cases h : (n.children.isEmpty && n.childrenPlus.isNone
      && n.childrenPound.isNone) = true
  · have he : n.children = [] := by
      rcases Bool.and_eq_true_iff.mp h with ⟨h1, _⟩
      rcases Bool.and_eq_true_iff.mp h1 with ⟨h2, _⟩
      exact List.isEmpty_iff.mp h2
    have hp : n.childrenPlus = none := by
      rcases Bool.and_eq_true_iff.mp h with ⟨h1, _⟩
      rcases Bool.and_eq_true_iff.mp h1 with ⟨_, h3⟩
      exact Option.isNone_iff_eq_none.mp h3
    have hq : n.childrenPound = none := by
      rcases Bool.and_eq_true_iff.mp h with ⟨_, h2⟩
      exact Option.isNone_iff_eq_none.mp h2
    simp [publishRecursively, h, he, hp, hq, assocFind]
  · simp only [publishRecursively, h, Bool.false_eq_true, if_false]
    congr 1
    · congr 1
      · cases n.childrenPound <;>
          simp [publishNonRecursively]
      · cases assocFind n.children cur <;> simp
    · cases n.childrenPlus <;> simp

theorem publishRecursively_emptyNode (alive : Nat → Bool) (ts : List String) :
    publishRecursively alive .empty ts = [] := by
  cases ts with
  | nil => rfl
  | cons cur rest =>
      rw [publishRecursively_cons]
      simp [SubscriptionNode.empty, assocFind]

theorem subsAtPath_emptyNode (p : List String) :
    subsAtPath .empty p = [] := by
  cases p with
  | nil => rfl
  | cons tok rest =>
      simp [subsAtPath, slotFind, SubscriptionNode.empty, assocFind]

/-- The deep insert touches the subscriber list only when the filter path is
exhausted. -/
theorem addSubscription_subscribers (n : SubscriptionNode) (f : List String)
    (s : Subscription) :
    (addSubscription n f s).subscribers =
      match f with
      | [] => addSubscriber n.subscribers s
      | _ :: _ => n.subscribers := by
  cases f with
  | nil => rfl
  | cons tok rest =>
      simp only [addSubscription]
      by_cases h1 : (tok == "#") = true
      · simp [h1]
      · have h1f : (tok == "#") = false := by simpa using h1
        by_cases h2 : (tok == "+") = true
        · simp [h1f, h2]
        · have h2f : (tok == "+") = false := by simpa using h2
          simp [h1f, h2f]

theorem countSid_filter_subs_addSubscription_ne (alive : Nat → Bool)
    (sid : Nat) (m : SubscriptionNode) (f : List String) (s : Subscription)
    (hne : s.sid ≠ sid) :
    countSid sid ((addSubscription m f s).subscribers.filter
        (fun x => alive x.sid))
      = countSid sid (m.subscribers.filter (fun x => alive x.sid)) := by
  rw [addSubscription_subscribers]
  cases f with
  | nil =>
      rw [countSid_filter_alive, countSid_filter_alive,
        countSid_addSubscriber_ne _ _ _ hne]
  | cons tok rest => rfl

theorem countSid_pub_addSubscription_ne (alive : Nat → Bool) (sid : Nat) :
    ∀ (f : List String) (n : SubscriptionNode) (s : Subscription)
      (ts : List String), s.sid ≠ sid →
      countSid sid (publishRecursively alive (addSubscription n f s) ts)
        = countSid sid (publishRecursively alive n ts) := by
  intro f
  induction f with
  | nil =>
      intro n s ts hne
      cases ts with
      | nil =>
          simp only [addSubscription, publishRecursively_nil,
            SubscriptionNode.subscribers_mk]
          rw [countSid_filter_alive, countSid_filter_alive,
            countSid_addSubscriber_ne _ _ _ hne]
      | cons cur rest =>
          rw [publishRecursively_cons, publishRecursively_cons]
          simp only [addSubscription, SubscriptionNode.children_mk,
            SubscriptionNode.childrenPlus_mk, SubscriptionNode.childrenPound_mk]
  | cons tok rest ih =>
      intro n s ts hne
      by_cases h1 : (tok == "#") = true
      · cases ts with
        | nil =>
            simp only [addSubscription, h1, if_true, publishRecursively_nil,
              SubscriptionNode.subscribers_mk]
        | cons cur rest2 =>
            rw [publishRecursively_cons, publishRecursively_cons]
            simp only [addSubscription, h1, if_true,
              SubscriptionNode.children_mk, SubscriptionNode.childrenPlus_mk,
              SubscriptionNode.childrenPound_mk, Option.map_some',
              Option.getD_some]
            rw [countSid_append, countSid_append, countSid_append,
              countSid_append]
            have hpnd := countSid_filter_subs_addSubscription_ne alive sid
              (n.childrenPound.getD .empty) rest s hne
            cases hq : n.childrenPound with
            | some p =>
                rw [hq] at hpnd
                simp only [Option.getD_some] at hpnd
                simp [hpnd]
            | none =>
                rw [hq] at hpnd
                simp only [Option.getD_none] at hpnd
                rw [show countSid sid
                    ((SubscriptionNode.empty).subscribers.filter
                      (fun x => alive x.sid)) = 0 from rfl] at hpnd
                simp [hpnd, countSid_nil]
      · have h1f : (tok == "#") = false := by simpa using h1
        by_cases h2 : (tok == "+") = true
        · cases ts with
          | nil =>
              simp only [addSubscription, h1f, Bool.false_eq_true, if_false,
                h2, if_true, publishRecursively_nil,
                SubscriptionNode.subscribers_mk]
          | cons cur rest2 =>
              rw [publishRecursively_cons, publishRecursively_cons]
              simp only [addSubscription, h1f, Bool.false_eq_true, if_false,
                h2, if_true, SubscriptionNode.children_mk,
                SubscriptionNode.childrenPlus_mk,
                SubscriptionNode.childrenPound_mk, Option.map_some',
                Option.getD_some]
              rw [countSid_append, countSid_append, countSid_append,
                countSid_append]
              have hplus := ih (n.childrenPlus.getD .empty) s rest2 hne
              cases hp : n.childrenPlus with
              | some c =>
                  rw [hp] at hplus
                  simp only [Option.getD_some] at hplus
                  simp [hplus]
              | none =>
                  rw [hp] at hplus
                  simp only [Option.getD_none] at hplus
                  rw [publishRecursively_emptyNode] at hplus
                  simp [hplus, countSid_nil]
        · have h2f : (tok == "+") = false := by simpa using h2
          cases ts with
          | nil =>
              simp only [addSubscription, h1f, h2f, Bool.false_eq_true,
                if_false, publishRecursively_nil,
                SubscriptionNode.subscribers_mk]
          | cons cur rest2 =>
              rw [publishRecursively_cons, publishRecursively_cons]
              simp only [addSubscription, h1f, h2f, Bool.false_eq_true,
                if_false, SubscriptionNode.children_mk,
                SubscriptionNode.childrenPlus_mk,
                SubscriptionNode.childrenPound_mk]
              rw [countSid_append, countSid_append, countSid_append,
                countSid_append]
              by_cases hcur : cur = tok
              · subst hcur
                rw [assocFind_assocSet_self]
                have hchild := ih ((assocFind n.children cur).getD .empty) s
                  rest2 hne
                cases hf : assocFind n.children cur with
                | some c =>
                    rw [hf] at hchild
                    simp only [Option.getD_some] at hchild
                    simp [hchild]
                | none =>
                    rw [hf] at hchild
                    simp only [Option.getD_none] at hchild
                    rw [publishRecursively_emptyNode] at hchild
                    simp [hchild, countSid_nil]
              · rw [assocFind_assocSet_ne _ _ _ _ hcur]

theorem countSid_subsAtPath_addSubscription_ne (sid : Nat) :
    ∀ (f : List String) (n : SubscriptionNode) (s : Subscription)
      (p : List String), s.sid ≠ sid →
      countSid sid (subsAtPath (addSubscription n f s) p)
        = countSid sid (subsAtPath n p) := by
  intro f
  induction f with
  | nil =>
      intro n s p hne
      cases p with
      | nil =>
          simp only [addSubscription, subsAtPath,
            SubscriptionNode.subscribers_mk]
          exact countSid_addSubscriber_ne _ _ _ hne
      | cons tok rest =>
          simp only [addSubscription, subsAtPath, slotFind,
            SubscriptionNode.children_mk, SubscriptionNode.childrenPlus_mk,
            SubscriptionNode.childrenPound_mk]
  | cons tok rest ih =>
      intro n s p hne
      by_cases h1 : (tok == "#") = true
      · cases p with
        | nil =>
            simp only [addSubscription, h1, if_true, subsAtPath,
              SubscriptionNode.subscribers_mk]
        | cons tok2 rest2 =>
            simp only [addSubscription, h1, if_true, subsAtPath, slotFind,
              SubscriptionNode.children_mk, SubscriptionNode.childrenPlus_mk,
              SubscriptionNode.childrenPound_mk]
            by_cases ht2 : (tok2 == "#") = true
            · simp only [ht2, if_true, Option.map_some', Option.getD_some]
              have hx := ih (n.childrenPound.getD .empty) s rest2 hne
              cases hq : n.childrenPound with
              | some p0 =>
                  rw [hq] at hx
                  simp only [Option.getD_some] at hx
                  simp [hx]
              | none =>
                  rw [hq] at hx
                  simp only [Option.getD_none] at hx
                  rw [subsAtPath_emptyNode] at hx
                  simp [hx, countSid_nil]
            · have ht2f : (tok2 == "#") = false := by simpa using ht2
              simp only [ht2f, Bool.false_eq_true, if_false]
      · have h1f : (tok == "#") = false := by simpa using h1
        by_cases h2 : (tok == "+") = true
        · cases p with
          | nil =>
              simp only [addSubscription, h1f, Bool.false_eq_true, if_false,
                h2, if_true, subsAtPath, SubscriptionNode.subscribers_mk]
          | cons tok2 rest2 =>
              simp only [addSubscription, h1f, Bool.false_eq_true, if_false,
                h2, if_true, subsAtPath, slotFind,
                SubscriptionNode.children_mk, SubscriptionNode.childrenPlus_mk,
                SubscriptionNode.childrenPound_mk]
              by_cases ht2 : (tok2 == "#") = true
              · simp only [ht2, if_true]
              · have ht2f : (tok2 == "#") = false := by simpa using ht2
                by_cases ht3 : (tok2 == "+") = true
                · simp only [ht2f, Bool.false_eq_true, if_false, ht3, if_true,
                    Option.map_some', Option.getD_some]
                  have hx := ih (n.childrenPlus.getD .empty) s rest2 hne
                  cases hp : n.childrenPlus with
                  | some p0 =>
                      rw [hp] at hx
                      simp only [Option.getD_some] at hx
                      simp [hx]
                  | none =>
                      rw [hp] at hx
                      simp only [Option.getD_none] at hx
                      rw [subsAtPath_emptyNode] at hx
                      simp [hx, countSid_nil]
                · have ht3f : (tok2 == "+") = false := by simpa using ht3
                  simp only [ht2f, ht3f, Bool.false_eq_true, if_false]
        · have h2f : (tok == "+") = false := by simpa using h2
          cases p with
          | nil =>
              simp only [addSubscription, h1f, h2f, Bool.false_eq_true,
                if_false, subsAtPath, SubscriptionNode.subscribers_mk]
          | cons tok2 rest2 =>
              simp only [addSubscription, h1f, h2f, Bool.false_eq_true,
                if_false, subsAtPath, slotFind, SubscriptionNode.children_mk,
                SubscriptionNode.childrenPlus_mk,
                SubscriptionNode.childrenPound_mk]
              by_cases ht2 : (tok2 == "#") = true
              · simp only [ht2, if_true]
              · have ht2f : (tok2 == "#") = false := by simpa using ht2
                by_cases ht3 : (tok2 == "+") = true
                · simp only [ht2f, Bool.false_eq_true, if_false, ht3, if_true]
                · have ht3f : (tok2 == "+") = false := by simpa using ht3
                  simp only [ht2f, ht3f, Bool.false_eq_true, if_false]
                  by_cases hcur : tok2 = tok
                  · subst hcur
                    rw [assocFind_assocSet_self]
                    simp only [Option.map_some', Option.getD_some]
                    have hx := ih ((assocFind n.children tok2).getD .empty) s
                      rest2 hne
                    cases hf : assocFind n.children tok2 with
                    | some c0 =>
                        rw [hf] at hx
                        simp only [Option.getD_some] at hx
                        simp [hx]
                    | none =>
                        rw [hf] at hx
                        simp only [Option.getD_none] at hx
                        rw [subsAtPath_emptyNode] at hx
                        simp [hx, countSid_nil]
                  · rw [assocFind_assocSet_ne _ _ _ _ hcur]

theorem validTokens_pound {rest : List String}
    (h : validTokens ("#" :: rest) = true) : rest = [] := by
  cases rest with
  | nil => rfl
  | cons a b =>
      exfalso
      simp only [validTokens, Bool.and_eq_true, Bool.or_eq_true] at h
      rcases h.1 with h1 | h1
      · exact absurd h1 (by decide)
      · exact absurd h1.1 (by decide)

theorem validTokens_tail {t : String} {rest : List String}
    (h : validTokens (t :: rest) = true) : validTokens rest = true := by
  cases rest with
  | nil => rfl
  | cons a b =>
      simp only [validTokens, Bool.and_eq_true] at h
      exact h.2

theorem countSid_single_self (s : Subscription) (alive : Nat → Bool) :
    countSid s.sid ([s].filter (fun x => alive x.sid))
      = if alive s.sid = true then 1 else 0 := by
  cases ha : alive s.sid <;>
    simp [countSid, List.filter_cons, ha, List.countP_cons]

theorem countSid_pub_addSubscription_fresh (alive : Nat → Bool) :
    ∀ (f : List String) (n : SubscriptionNode) (s : Subscription)
      (ts : List String),
      validTokens f = true →
      countSid s.sid (subsAtPath n f) = 0 →
      countSid s.sid (publishRecursively alive (addSubscription n f s) ts)
        = countSid s.sid (publishRecursively alive n ts)
          + (if (alive s.sid && codeTopicMatch f ts) = true then 1 else 0) := by
  intro f
  induction f with
  | nil =>
      intro n s ts hvalid hfresh
      cases ts with
      | nil =>
          simp only [subsAtPath] at hfresh
          simp only [addSubscription, publishRecursively_nil,
            SubscriptionNode.subscribers_mk,
            countSid_addSubscriber_fresh n.subscribers s hfresh,
            List.filter_append, countSid_append, codeTopicMatch, Bool.and_true]
          rw [countSid_single_self]
      | cons cur rest2 =>
          rw [publishRecursively_cons, publishRecursively_cons]
          simp only [addSubscription, SubscriptionNode.children_mk,
            SubscriptionNode.childrenPlus_mk, SubscriptionNode.childrenPound_mk,
            codeTopicMatch, Bool.and_false, Bool.false_eq_true, if_false]
          omega
  | cons tok rest ih =>
      intro n s ts hvalid hfresh
      by_cases h1 : (tok == "#") = true
      · have htok : tok = "#" := by simpa using h1
        subst htok
        have hrest : rest = [] := validTokens_pound hvalid
        subst hrest
        cases ts with
        | nil =>
            simp only [addSubscription, h1, if_true, publishRecursively_nil,
              SubscriptionNode.subscribers_mk, codeTopicMatch, Bool.and_false,
              Bool.false_eq_true, if_false]
            omega
        | cons cur rest2 =>
            simp only [subsAtPath, slotFind, h1, if_true] at hfresh
            rw [publishRecursively_cons, publishRecursively_cons]
            simp only [addSubscription, h1, if_true,
              SubscriptionNode.subscribers_mk, SubscriptionNode.children_mk,
              SubscriptionNode.childrenPlus_mk, SubscriptionNode.childrenPound_mk,
              Option.map_some', Option.getD_some]
            rw [countSid_append, countSid_append, countSid_append,
              countSid_append]
            simp only [codeTopicMatch, h1, if_true, List.isEmpty_nil,
              Bool.and_true]
            cases hq : n.childrenPound with
            | some p0 =>
                rw [hq] at hfresh
                simp only [Option.map_some', Option.getD_some, subsAtPath]
                  at hfresh
                simp only [Option.getD_some, Option.map_some']
                rw [countSid_addSubscriber_fresh p0.subscribers s hfresh,
                  List.filter_append, countSid_append, countSid_single_self]
                omega
            | none =>
                simp only [Option.getD_none, Option.map_none']
                rw [countSid_addSubscriber_fresh
                    (SubscriptionNode.empty).subscribers s (by rfl),
                  List.filter_append, countSid_append, countSid_single_self]
                simp only [SubscriptionNode.empty,
                  SubscriptionNode.subscribers_mk, List.filter_nil,
                  countSid_nil, Option.getD_none]
                omega
      · have h1f : (tok == "#") = false := by simpa using h1
        by_cases h2 : (tok == "+") = true
        · have htok : tok = "+" := by simpa using h2
          subst htok
          cases ts with
          | nil =>
              simp only [addSubscription, h1f, Bool.false_eq_true, if_false,
                h2, if_true, publishRecursively_nil,
                SubscriptionNode.subscribers_mk, codeTopicMatch,
                Bool.and_false]
              omega
          | cons cur rest2 =>
              simp only [subsAtPath, slotFind, h1f, Bool.false_eq_true,
                if_false, h2, if_true] at hfresh
              rw [publishRecursively_cons, publishRecursively_cons]
              simp only [addSubscription, h1f, Bool.false_eq_true, if_false,
                h2, if_true, SubscriptionNode.children_mk,
                SubscriptionNode.childrenPlus_mk,
                SubscriptionNode.childrenPound_mk, Option.map_some',
                Option.getD_some]
              rw [countSid_append, countSid_append, countSid_append,
                countSid_append]
              simp only [codeTopicMatch, h1f, Bool.false_eq_true, if_false,
                h2, if_true]
              cases hp : n.childrenPlus with
              | some c0 =>
                  rw [hp] at hfresh
                  simp only [Option.map_some', Option.getD_some] at hfresh
                  have hx := ih c0 s rest2 (validTokens_tail hvalid) hfresh
                  simp only [Option.map_some', Option.getD_some]
                  rw [hx]
                  omega
              | none =>
                  have hx := ih .empty s rest2 (validTokens_tail hvalid)
                    (by rw [subsAtPath_emptyNode]; rfl)
                  simp only [Option.map_none', Option.getD_none]
                  rw [hx, publishRecursively_emptyNode]
                  simp only [countSid_nil]
                  omega
        · have h2f : (tok == "+") = false := by simpa using h2
          cases ts with
          | nil =>
              simp only [addSubscription, h1f, h2f, Bool.false_eq_true,
                if_false, publishRecursively_nil,
                SubscriptionNode.subscribers_mk, codeTopicMatch,
                Bool.and_false]
              omega
          | cons cur rest2 =>
              simp only [subsAtPath, slotFind, h1f, h2f, Bool.false_eq_true,
                if_false] at hfresh
              rw [publishRecursively_cons, publishRecursively_cons]
              simp only [addSubscription, h1f, h2f, Bool.false_eq_true,
                if_false, SubscriptionNode.children_mk,
                SubscriptionNode.childrenPlus_mk,
                SubscriptionNode.childrenPound_mk]
              rw [countSid_append, countSid_append, countSid_append,
                countSid_append]
              simp only [codeTopicMatch, h1f, h2f, Bool.false_eq_true,
                if_false]
              by_cases hcur : cur = tok
              · subst hcur
                have hteq : (cur == cur) = true := by
                  simp
                rw [assocFind_assocSet_self]
                simp only [Option.map_some', Option.getD_some, hteq,
                  Bool.true_and]
                cases hf : assocFind n.children cur with
                | some c0 =>
                    rw [hf] at hfresh
                    simp only [Option.map_some', Option.getD_some] at hfresh
                    have hx := ih c0 s rest2 (validTokens_tail hvalid) hfresh
                    simp only [Option.map_some', Option.getD_some]
                    rw [hx]
                    omega
                | none =>
                    have hx := ih .empty s rest2 (validTokens_tail hvalid)
                      (by rw [subsAtPath_emptyNode]; rfl)
                    simp only [Option.map_none', Option.getD_none]
                    rw [hx, publishRecursively_emptyNode]
                    simp only [countSid_nil]
                    omega
              · have hteq : (tok == cur) = false :=
                  beq_eq_false_iff_ne.mpr (fun hh => hcur hh.symm)
                rw [assocFind_assocSet_ne _ _ _ _ hcur]
                simp only [hteq, Bool.false_and, Bool.and_false,
                  Bool.false_eq_true, if_false]
                omega

theorem countSid_pub_foldl_ne (alive : Nat → Bool) (sid : Nat)
    (ts : List String) :
    ∀ (L : List (List String × Subscription)) (n : SubscriptionNode),
      (∀ x ∈ L, x.2.sid ≠ sid) →
      countSid sid (publishRecursively alive
          (L.foldl (fun m fs => addSubscription m fs.1 fs.2) n) ts)
        = countSid sid (publishRecursively alive n ts) := by
  intro L
  induction L with
  | nil => intro n _; rfl
  | cons hd tl ih =>
      intro n hne
      simp only [List.foldl_cons]
      rw [ih (addSubscription n hd.1 hd.2)
        (fun x hx => hne x (List.mem_cons_of_mem hd hx))]
      exact countSid_pub_addSubscription_ne alive sid hd.1 n hd.2 ts
        (hne hd (List.mem_cons_self hd tl))

theorem buildTrie_countSid (alive : Nat → Bool) (ts : List String) :
    ∀ (L : List (List String × Subscription)) (n : SubscriptionNode)
      (f : List String) (s : Subscription),
      (∀ x ∈ L, validTokens x.1 = true) →
      (L.map (fun x => x.2.sid)).Nodup →
      (f, s) ∈ L →
      countSid s.sid (publishRecursively alive n ts) = 0 →
      countSid s.sid (subsAtPath n f) = 0 →
      countSid s.sid (publishRecursively alive
          (L.foldl (fun m fs => addSubscription m fs.1 fs.2) n) ts)
        = if (alive s.sid && codeTopicMatch f ts) = true then 1 else 0 := by
  intro L
  induction L with
  | nil =>
      intro n f s _ _ hmem
      exact absurd hmem (List.not_mem_nil _)
  | cons hd tl ih =>
      intro n f s hvalid hnodup hmem hpub hpath
      simp only [List.map_cons, List.nodup_cons] at hnodup
      simp only [List.foldl_cons]
      rcases List.mem_cons.mp hmem with heq | hmem2
      · obtain ⟨hf1, hf2⟩ : hd.1 = f ∧ hd.2 = s := by
          rw [← heq]
          exact ⟨rfl, rfl⟩
        rw [hf1, hf2]
        have hne : ∀ x ∈ tl, x.2.sid ≠ s.sid := by
          intro x hx hcon
          exact hnodup.1 ((hf2 ▸ hcon) ▸ List.mem_map_of_mem
            (fun y => y.2.sid) hx)
        rw [countSid_pub_foldl_ne alive s.sid ts tl (addSubscription n f s) hne]
        rw [countSid_pub_addSubscription_fresh alive f n s ts
          (by have := hvalid hd (List.mem_cons_self hd tl); rwa [hf1] at this)
          hpath]
        rw [hpub, Nat.zero_add]
      · have hne : hd.2.sid ≠ s.sid := by
          intro hcon
          exact hnodup.1 (hcon ▸ List.mem_map_of_mem (fun y => y.2.sid) hmem2)
        exact ih (addSubscription n hd.1 hd.2) f s
          (fun x hx => hvalid x (List.mem_cons_of_mem hd hx))
          hnodup.2 hmem2
          (by rw [countSid_pub_addSubscription_ne alive s.sid hd.1 n hd.2 ts
              hne]
              exact hpub)
          (by rw [countSid_subsAtPath_addSubscription_ne s.sid hd.1 n hd.2 f
              hne]
              exact hpath)

/-- C3 counterexample: install the filter `a/#` for session 7 and publish the
wildcard-free topic `a`.  Under MQTT rules (as the claim words them, `#`
matching zero remaining levels) the filter matches the topic, yet
`queuePacketAtSubscribers` delivers to nobody: at the end of the topic path
`publishRecursively` reads only the node's own subscribers and never the `#`
child. -/
theorem pound_zero_levels_counterexample :
    mqttTopicMatch ["a", "#"] ["a"] = true ∧
      queuePacketAtSubscribers (fun _ => true)
        (buildTrie [(["a", "#"], ⟨7, 0⟩)]) .empty ["a"] false = [] :=
  ⟨by decide, by decide⟩

/-- C3 (amended): for every wildcard-free publish topic and every family of
syntactically valid subscription filters installed (each for a distinct
session) under the matching root before the publish,
`queuePacketAtSubscribers` delivers the packet to a filter's live session
exactly once iff the filter matches the topic under the code's matching
relation `codeTopicMatch` — MQTT matching except that a final `#` requires at
least one remaining topic level (`a/#` matches `a/b` but not `a`) — and zero
times otherwise. -/
theorem queuePacketAtSubscribers_exactly_once
    (installs : List (List String × Subscription)) (alive : Nat → Bool)
    (rootDollar : SubscriptionNode) (f : List String) (s : Subscription)
    (ts : List String)
    (hvalid : ∀ x ∈ installs, validSubscribeTopic x.1 = true)
    (hnodup : (installs.map (fun x => x.2.sid)).Nodup)
    (hmem : (f, s) ∈ installs)
    (hts : ts ≠ [])
    (hplain : ∀ t ∈ ts, t ≠ "#" ∧ t ≠ "+") :
    countSid s.sid (queuePacketAtSubscribers alive (buildTrie installs)
        rootDollar ts false)
      = if (alive s.sid && codeTopicMatch f ts) = true then 1 else 0 := by
  have hstart : (if false then rootDollar else buildTrie installs)
      = buildTrie installs := rfl
  unfold queuePacketAtSubscribers
  rw [hstart]
  unfold buildTrie
  exact buildTrie_countSid alive ts installs .empty f s
    (fun x hx => by
      have hv := hvalid x hx
      simp only [validSubscribeTopic, Bool.and_eq_true] at hv
      exact hv.2)
    hnodup hmem (by rw [publishRecursively_emptyNode]; rfl)
    (by rw [subsAtPath_emptyNode]; rfl)

theorem queuePacketAtSubscribers_exactly_once_witness :
    countSid 7 (queuePacketAtSubscribers (fun _ => true)
        (buildTrie [(["a", "#"], ⟨7, 0⟩)]) .empty ["a", "b"] false) = 1 := by
  have h := queuePacketAtSubscribers_exactly_once [(["a", "#"], ⟨7, 0⟩)]
    (fun _ => true) .empty ["a", "#"] ⟨7, 0⟩ ["a", "b"]
    (by decide) (by decide) (by decide) (by decide) (by decide)
  rw [if_pos (by decide)] at h
  exact h

/-- C9: with the (spec-modelled) SUBSCRIBE-handler validation in front of the
store, inserting a subscription fails exactly on syntactically invalid topic
filters — empty filter, `#` not in final position, or `+`/`#` embedded inside
a token — and on every such failure the caller receives the validation error
while the trie is returned unchanged (no node is created); a valid filter
never fails. -/
theorem addSubscription_fails_only_invalid (sessionsById : List (String × Nat))
    (clientid : String) (root : SubscriptionNode) (subtopics : List String)
    (qos : Nat) :
    ((addSubscriptionChecked sessionsById clientid root subtopics qos).1 = false
        ↔ validSubscribeTopic subtopics = false) ∧
      (validSubscribeTopic subtopics = false →
        addSubscriptionChecked sessionsById clientid root subtopics qos
          = (false, root)) := by
  unfold addSubscriptionChecked
  cases hv : validSubscribeTopic subtopics <;> simp [hv]

theorem addSubscription_fails_only_invalid_witness :
    addSubscriptionChecked [] "c" .empty ["#", "a"] 0 = (false, .empty) :=
  (addSubscription_fails_only_invalid [] "c" .empty ["#", "a"] 0).2 (by decide)

theorem assocSet_find_self {α : Type} (l : List (String × α)) (k : String)
    (v : α) (h : assocFind l k = some v) : assocSet l k v = l := by
  induction l with
  | nil => simp [assocFind] at h
  | cons x rest ih =>
      obtain ⟨k0, v0⟩ := x
      by_cases hx : (k0 == k) = true
      · have hk0 : k0 = k := by simpa using hx
        subst hk0
        simp only [assocFind, List.find?_cons, hx, Option.map_some'] at h
        rcases h with h
        simp only [assocSet, hx, if_true]
        rw [show v = v0 by simpa using h.symm]
      · have hx2 : (k0 == k) = false := by simpa using hx
        simp only [assocFind, List.find?_cons, hx2] at h
        simp only [assocSet, hx2, Bool.false_eq_true, if_false]
        rw [ih (by simpa [assocFind] using h)]

/-- C10: for every topic filter whose node path does not fully exist in the
trie, `removeSubscription` returns with the trie completely unchanged — the
walk uses `getChildren`/the raw wildcard slots, which never default-create,
and aborts before any mutation. -/
theorem removeSubscription_missing_path (sessionsById : List (String × Nat)) :
    ∀ (ts : List String) (n : SubscriptionNode) (clientid : String),
      pathExists n ts = false →
      removeSubscription sessionsById n ts clientid = n := by
  intro ts
  induction ts with
  | nil =>
      intro n clientid h
      exact absurd h (by simp [pathExists, nodeAt])
  | cons tok rest ih =>
      intro n clientid h
      simp only [pathExists, nodeAt] at h
      cases hs : slotFind n tok with
      | none => simp [removeSubscription, hs]
      | some c =>
          rw [hs] at h
          simp only [Option.some_bind] at h
          have hc := ih c clientid (by simpa [pathExists] using h)
          simp only [removeSubscription, hs, hc]
          by_cases h1 : (tok == "#") = true
          · simp only [h1, if_true]
            have hq : n.childrenPound = some c := by
              simpa [slotFind, h1] using hs
            rw [← hq, SubscriptionNode.eta]
          · have h1f : (tok == "#") = false := by simpa using h1
            by_cases h2 : (tok == "+") = true
            · simp only [h1f, Bool.false_eq_true, if_false, h2, if_true]
              have hp : n.childrenPlus = some c := by
                simpa [slotFind, h1f, h2] using hs
              rw [← hp, SubscriptionNode.eta]
            · have h2f : (tok == "+") = false := by simpa using h2
              simp only [h1f, h2f, Bool.false_eq_true, if_false]
              have hf : assocFind n.children tok = some c := by
                simpa [slotFind, h1f, h2f] using hs
              rw [assocSet_find_self n.children tok c hf,
                SubscriptionNode.eta]

theorem removeSubscription_missing_path_witness :
    removeSubscription [("c", 3)] .empty ["a", "b"] "c" = .empty :=
  removeSubscription_missing_path [("c", 3)] ["a", "b"] .empty "c" rfl

theorem SubscriptionNode.strong_induction {motive : SubscriptionNode → Prop}
    (step : ∀ n : SubscriptionNode,
      (∀ m : SubscriptionNode, sizeOf m < sizeOf n → motive m) → motive n) :
    ∀ n, motive n := by
  have aux : ∀ (k : Nat) (n : SubscriptionNode), sizeOf n < k → motive n := by
    intro k
    induction k with
    | zero => intro n h; omega
    | succ k ih => intro n h; exact step n (fun m hm => ih m (by omega))
  intro n
  exact aux (sizeOf n + 1) n (by omega)

theorem sizeOf_child_lt (subs : List Subscription)
    (ch : List (String × SubscriptionNode)) (pl pd : Option SubscriptionNode)
    (kc : String × SubscriptionNode) (h : kc ∈ ch) :
    sizeOf kc.2 < sizeOf (SubscriptionNode.mk subs ch pl pd) := by
  have h1 := List.sizeOf_lt_of_mem h
  obtain ⟨k, c⟩ := kc
  simp only [Prod.mk.sizeOf_spec] at h1
  simp only [SubscriptionNode.mk.sizeOf_spec]
  omega

theorem sizeOf_plus_lt (subs : List Subscription)
    (ch : List (String × SubscriptionNode)) (pl pd : Option SubscriptionNode)
    (c : SubscriptionNode) (h : pl = some c) :
    sizeOf c < sizeOf (SubscriptionNode.mk subs ch pl pd) := by
  subst h
  simp only [SubscriptionNode.mk.sizeOf_spec, Option.some.sizeOf_spec]
  omega

theorem sizeOf_pound_lt (subs : List Subscription)
    (ch : List (String × SubscriptionNode)) (pl pd : Option SubscriptionNode)
    (c : SubscriptionNode) (h : pd = some c) :
    sizeOf c < sizeOf (SubscriptionNode.mk subs ch pl pd) := by
  subst h
  simp only [SubscriptionNode.mk.sizeOf_spec, Option.some.sizeOf_spec]
  omega

theorem filter_alive_idem (alive : Nat → Bool) (l : List Subscription) :
    (l.filter (fun s => alive s.sid)).filter (fun s => alive s.sid)
      = l.filter (fun s => alive s.sid) := by
  apply List.filter_eq_self.mpr
  intro a ha
  exact (List.mem_filter.mp ha).2

theorem cleanChildrenList_mem (alive : Nat → Bool) :
    ∀ (ch : List (String × SubscriptionNode)) (x : String × SubscriptionNode),
      x ∈ (cleanChildrenList alive ch).1 →
      ∃ kc, kc ∈ ch ∧ x.2 = (cleanSubscriptions alive kc.2).1 ∧
        0 < (cleanSubscriptions alive kc.2).2 := by
  intro ch
  induction ch with
  | nil =>
      intro x hx
      simp [cleanChildrenList] at hx
  | cons kc rest ih =>
      intro x hx
      obtain ⟨k, c⟩ := kc
      simp only [cleanChildrenList] at hx
      by_cases hr : 0 < (cleanSubscriptions alive c).2
      · rw [if_pos hr] at hx
        rcases List.mem_cons.mp hx with hx | hx
        · subst hx
          exact ⟨(k, c), List.mem_cons_self _ _, rfl, hr⟩
        · obtain ⟨kc2, hmem, h2, h3⟩ := ih x hx
          exact ⟨kc2, List.mem_cons_of_mem _ hmem, h2, h3⟩
      · rw [if_neg hr] at hx
        obtain ⟨kc2, hmem, h2, h3⟩ := ih x hx
        exact ⟨kc2, List.mem_cons_of_mem _ hmem, h2, h3⟩

theorem cleanWildcardChild_some (alive : Nat → Bool)
    (o : Option SubscriptionNode) (c0 : SubscriptionNode)
    (h : (cleanWildcardChild alive o).1 = some c0) :
    ∃ orig, o = some orig ∧ c0 = (cleanSubscriptions alive orig).1 ∧
      0 < (cleanSubscriptions alive orig).2 := by
  cases o with
  | none => simp [cleanWildcardChild] at h
  | some orig =>
      simp only [cleanWildcardChild] at h
      by_cases hr : 0 < (cleanSubscriptions alive orig).2
      · rw [if_pos hr] at h
        refine ⟨orig, rfl, ?_, hr⟩
        injection h with h
        exact h.symm
      · rw [if_neg hr] at h
        simp at h

theorem assocFind_mem {α : Type} (l : List (String × α)) (k : String) (v : α)
    (h : assocFind l k = some v) : ∃ e, e ∈ l ∧ e.2 = v := by
  simp only [assocFind] at h
  cases hf : l.find? (fun e => e.1 == k) with
  | none => rw [hf] at h; simp at h
  | some e =>
      rw [hf] at h
      simp only [Option.map_some'] at h
      refine ⟨e, List.mem_of_find?_eq_some hf, ?_⟩
      injection h

theorem cleanChildrenList_totalLive (alive : Nat → Bool)
    (ch : List (String × SubscriptionNode))
    (IH : ∀ kc ∈ ch, (cleanSubscriptions alive kc.2).2
      = totalLive alive (cleanSubscriptions alive kc.2).1) :
    totalLiveChildren alive (cleanChildrenList alive ch).1
      = (cleanChildrenList alive ch).2 := by
  induction ch with
  | nil => simp [cleanChildrenList, totalLiveChildren]
  | cons kc rest ih =>
      obtain ⟨k, c⟩ := kc
      have hc2 : (cleanSubscriptions alive c).2
          = totalLive alive (cleanSubscriptions alive c).1 :=
        IH (k, c) (List.mem_cons_self _ _)
      have hrest := ih (fun x hx => IH x (List.mem_cons_of_mem _ hx))
      simp only [cleanChildrenList]
      by_cases hr : 0 < (cleanSubscriptions alive c).2
      · rw [if_pos hr]
        simp only [totalLiveChildren]
        rw [hrest]
        omega
      · rw [if_neg hr]
        rw [hrest]
        omega

theorem cleanWildcardChild_totalLive (alive : Nat → Bool)
    (o : Option SubscriptionNode)
    (IH : ∀ c, o = some c → (cleanSubscriptions alive c).2
      = totalLive alive (cleanSubscriptions alive c).1) :
    totalLiveOpt alive (cleanWildcardChild alive o).1
      = (cleanWildcardChild alive o).2 := by
  cases o with
  | none => simp [cleanWildcardChild, totalLiveOpt]
  | some c =>
      have hc := IH c rfl
      simp only [cleanWildcardChild]
      by_cases hr : 0 < (cleanSubscriptions alive c).2
      · rw [if_pos hr]
        simp only [totalLiveOpt]
        exact hc.symm
      · rw [if_neg hr]
        simp only [totalLiveOpt]
        omega

theorem cleanSubscriptions_count (alive : Nat → Bool) :
    ∀ n : SubscriptionNode, (cleanSubscriptions alive n).2
      = totalLive alive (cleanSubscriptions alive n).1 := by
  refine SubscriptionNode.strong_induction ?_
  intro n IH
  obtain ⟨subs, ch, pl, pd⟩ := n
  have hch := cleanChildrenList_totalLive alive ch
    (fun kc hkc => IH kc.2 (sizeOf_child_lt subs ch pl pd kc hkc))
  have hpl := cleanWildcardChild_totalLive alive pl
    (fun c hc => IH c (sizeOf_plus_lt subs ch pl pd c hc))
  have hpd := cleanWildcardChild_totalLive alive pd
    (fun c hc => IH c (sizeOf_pound_lt subs ch pl pd c hc))
  simp only [cleanSubscriptions, totalLive, filter_alive_idem]
  rw [hch, hpl, hpd]
  omega

theorem cleanSubscriptions_no_orphans (alive : Nat → Bool) :
    ∀ (n : SubscriptionNode) (p : List String) (c : SubscriptionNode),
      p ≠ [] → nodeAt (cleanSubscriptions alive n).1 p = some c →
      0 < totalLive alive c := by
  refine SubscriptionNode.strong_induction ?_
  intro n IH
  obtain ⟨subs, ch, pl, pd⟩ := n
  intro p c hp hnode
  cases p with
  | nil => exact absurd rfl hp
  | cons tok rest =>
      simp only [cleanSubscriptions, nodeAt, slotFind,
        SubscriptionNode.children_mk, SubscriptionNode.childrenPlus_mk,
        SubscriptionNode.childrenPound_mk] at hnode
      by_cases h1 : (tok == "#") = true
      · rw [if_pos h1] at hnode
        cases hq : (cleanWildcardChild alive pd).1 with
        | none =>
            rw [hq] at hnode
            simp at hnode
        | some c0 =>
            rw [hq] at hnode
            simp only [Option.some_bind] at hnode
            obtain ⟨orig, ho, hc0, hcount⟩ :=
              cleanWildcardChild_some alive pd c0 hq
            cases rest with
            | nil =>
                simp only [nodeAt, Option.some_inj] at hnode
                subst hnode
                rw [hc0, ← cleanSubscriptions_count alive orig]
                exact hcount
            | cons tok2 rest2 =>
                rw [hc0] at hnode
                exact IH orig (sizeOf_pound_lt subs ch pl pd orig ho)
                  (tok2 :: rest2) c (List.cons_ne_nil tok2 rest2) hnode
      · rw [if_neg (by simpa using h1)] at hnode
        by_cases h2 : (tok == "+") = true
        · rw [if_pos h2] at hnode
          cases hq : (cleanWildcardChild alive pl).1 with
          | none =>
              rw [hq] at hnode
              simp at hnode
          | some c0 =>
              rw [hq] at hnode
              simp only [Option.some_bind] at hnode
              obtain ⟨orig, ho, hc0, hcount⟩ :=
                cleanWildcardChild_some alive pl c0 hq
              cases rest with
              | nil =>
                  simp only [nodeAt, Option.some_inj] at hnode
                  subst hnode
                  rw [hc0, ← cleanSubscriptions_count alive orig]
                  exact hcount
              | cons tok2 rest2 =>
                  rw [hc0] at hnode
                  exact IH orig (sizeOf_plus_lt subs ch pl pd orig ho)
                    (tok2 :: rest2) c (List.cons_ne_nil tok2 rest2) hnode
        · rw [if_neg (by simpa using h2)] at hnode
          cases hq : assocFind (cleanChildrenList alive ch).1 tok with
          | none =>
              rw [hq] at hnode
              simp at hnode
          | some c0 =>
              rw [hq] at hnode
              simp only [Option.some_bind] at hnode
              obtain ⟨e, he, hev⟩ :=
                assocFind_mem (cleanChildrenList alive ch).1 tok c0 hq
              obtain ⟨kc, hkc, hc0, hcount⟩ :=
                cleanChildrenList_mem alive ch e he
              rw [hev] at hc0
              cases rest with
              | nil =>
                  simp only [nodeAt, Option.some_inj] at hnode
                  subst hnode
                  rw [hc0, ← cleanSubscriptions_count alive kc.2]
                  exact hcount
              | cons tok2 rest2 =>
                  rw [hc0] at hnode
                  exact IH kc.2 (sizeOf_child_lt subs ch pl pd kc hkc)
                    (tok2 :: rest2) c (List.cons_ne_nil tok2 rest2) hnode

/-- C8 counterexample: subscribe session 4 to `$SYS/x` (a filter under the
`$` root), let the session die, and run the periodic sweep.  The sweep calls
`cleanSubscriptions` on `root` only; `rootDollar` is untouched, so its
non-root node `$SYS` survives with a subtree containing no live subscriber
(its total live count is 0). -/
theorem sweep_misses_dollar_root_counterexample :
    nodeAt (removeExpiredSessionsClients (fun _ => false) .empty
        (addSubscription .empty ["$SYS", "x"] ⟨4, 0⟩)).2 ["$SYS"]
      = some (SubscriptionNode.mk []
          [("x", .mk [⟨4, 0⟩] [] none none)] none none) ∧
      totalLive (fun _ => false)
        (SubscriptionNode.mk [] [("x", .mk [⟨4, 0⟩] [] none none)] none none)
        = 0 :=
  ⟨rfl, by decide⟩

/-- C8 (amended): after any sequence of subscription adds and removes under
the main root followed by the periodic sweep
(`removeExpiredSessionsClients`), the main trie contains no non-root node
whose subtree has neither a direct subscription with a live session nor any
descendant with one (every node reachable by a non-empty path has a positive
live count).  The `$` root is not swept — `removeExpiredSessionsClients`
calls `cleanSubscriptions` on `root` only — so the guarantee does not extend
to nodes under `rootDollar`. -/
theorem sweep_no_orphans (alive : Nat → Bool)
    (root rootDollar : SubscriptionNode) (p : List String)
    (c : SubscriptionNode) (hp : p ≠ [])
    (hnode : nodeAt (removeExpiredSessionsClients alive root rootDollar).1 p
      = some c) :
    0 < totalLive alive c :=
  cleanSubscriptions_no_orphans alive root p c hp hnode

theorem sweep_no_orphans_witness :
    0 < totalLive (fun _ => true) (SubscriptionNode.mk [⟨1, 0⟩] [] none none) :=
  sweep_no_orphans (fun _ => true) (addSubscription .empty ["a"] ⟨1, 0⟩) .empty
    ["a"] (SubscriptionNode.mk [⟨1, 0⟩] [] none none)
    (by simp) rfl

end FlashMQ
